import Mathlib

/-!
Shallow embedding of `m1ome/whisper` (`main.go`): a chunked Ethereum
event scanner that queries the chain head, fetches logs for a bounded
block range, decodes matching logs, POSTs them to a webhook, and
persists a block checkpoint to a file.

Block numbers are Go `int64` values, modelled as `Int` (the claims never
exercise values near 2^63, so wraparound is immaterial). 32-byte words
(topics, hashes) are modelled as `Nat`; the zero hash is `0`.  External
library calls (topic decoding, ABI unpacking, the HTTP POST) are
oracles passed as function parameters.
-/

namespace Whisper

/-- A decoded ABI value (integer, address, boolean, string or bytes),
following the data model of the interface description. -/
inductive AbiValue where
  | int (n : Int)
  | addr (a : Nat)
  | boolean (b : Bool)
  | str (s : String)
  | bytes (bs : List Nat)
deriving DecidableEq, Repr

/-- A field mapping from parameter name to decoded value, as filled by
`abi.ParseTopicsIntoMap` / `abi.UnpackIntoMap`. -/
abbrev FieldMap := List (String × AbiValue)

/-- An ABI event input: `abi.Argument` restricted to what the scanner
reads (name and the `Indexed` flag). -/
structure AbiInput where
  name : String
  indexed : Bool
deriving DecidableEq, Repr

/-- An ABI event: `abi.Event` restricted to what the scanner reads
(`Name`, `ID` — the 32-byte signature hash — and `Inputs`).  The Go
zero value has empty name, zero hash and no inputs. -/
structure AbiEvent where
  name : String
  id : Nat
  inputs : List AbiInput
deriving DecidableEq, Repr

/-- The Go zero value of `abi.Event`: `var mappedEvent abi.Event`. -/
def zeroAbiEvent : AbiEvent := ⟨"", 0, []⟩

/-- A fetched log record: `types.Log` restricted to what `parseLogs`
reads (`Topics`, `Data`, `TxHash`). -/
structure GoLog where
  topics : List Nat
  data : List Nat
  txHash : Nat
deriving DecidableEq, Repr

/-- The webhook payload struct (`WebhookRequest` in `main.go`): fields
`Event`, `TxHash`, `Data`, with JSON tags `event`, `tx_hash`, `data`. -/
structure WebhookRequest where
  event : String
  txHash : String
  data : FieldMap
deriving DecidableEq, Repr

/-- A JSON value, as far as the webhook body needs. -/
inductive Json where
  | str (s : String)
  | obj (fields : List (String × AbiValue))
deriving DecidableEq, Repr

/-- `json.Marshal` on `WebhookRequest`: a JSON object whose keys come
from the struct tags `event`, `tx_hash`, `data`, in declaration
order. -/
def marshalWebhook (r : WebhookRequest) : List (String × Json) :=
  [("event", Json.str r.event), ("tx_hash", Json.str r.txHash),
   ("data", Json.obj r.data)]

/-- One lowercase hexadecimal digit character. -/
def hexChar (n : Nat) : Char :=
  "0123456789abcdef".toList.getD n 'x'

/-- Big-endian, zero-padded lowercase hex rendering of `v` over `w`
nibbles. -/
def hexDigits : Nat → Nat → List Char
  | 0, _ => []
  | w + 1, v => hexDigits w (v / 16) ++ [hexChar (v % 16)]

/-- `common.Hash.Hex()`: `0x` followed by 64 lowercase hex characters
(32 bytes, zero padded). -/
def goHashHex (h : Nat) : String :=
  "0x" ++ String.mk (hexDigits 64 h)

/-- The result of `httpClient.Do`: either a transport-level error or an
HTTP response with a status code. -/
structure SendResult where
  transportError : Bool
  status : Int
deriving DecidableEq, Repr

/-- The status-code test from `main.go` line 209, verbatim:
`res.StatusCode > 299 || res.StatusCode < 200`. -/
def statusOutside (s : Int) : Bool :=
  s > 299 || s < 200

/-- The dispatcher's failure classification: the transport-error check
(`main.go` line 205) together with the status-window check (line 209). -/
def deliveryFailed (r : SendResult) : Bool :=
  r.transportError || statusOutside r.status

/-- External calls consumed by `parseLogs`: `abi.ParseTopicsIntoMap`
(over the indexed arguments and `Topics[1:]`), `abi.UnpackIntoMap`
(over the event name and `Data`), and the HTTP POST of the marshalled
payload. -/
structure Oracles where
  decodeTopics : List AbiInput → List Nat → Except String FieldMap
  unpackData : String → List Nat → Except String FieldMap
  send : WebhookRequest → SendResult

/-- How one `parseLogs` run ends: a Go panic (indexing `Topics[0]` on a
log with no topics), an error return, or a nil return. -/
inductive Outcome where
  | panicked
  | errored
  | ok
deriving DecidableEq, Repr

/-- The match test from `parseLogs`: `l.Topics[0] == mappedEvent.ID`
(callable only when the log has topics). -/
def logMatches (ev : AbiEvent) (t0 : Nat) : Bool :=
  t0 == ev.id

/-- How the body of the `parseLogs` loop ends for one log: a Go panic
(indexing `Topics[0]` on a log with no topics), a silent skip (first
topic differs from the event ID), an error return (decode, transport or
non-2xx failure, carrying the POSTs attempted for this log), or a
successful POST of a payload. -/
inductive StepResult where
  | panicked
  | skip
  | fail (attempted : List WebhookRequest)
  | sent (req : WebhookRequest)
deriving DecidableEq, Repr

/-- The body of the `parseLogs` loop (`main.go` lines 177–214) for one
log `l`: read `l.Topics[0]` (a panic when `Topics` is empty), compare
it with `mappedEvent.ID`, and on a match run `abi.ParseTopicsIntoMap`
on `Topics[1:]`, `abi.UnpackIntoMap` on `Data`, build the
`WebhookRequest` from the event name, `l.TxHash.Hex()` and the filled
map, POST it, and check the transport error and the status-code
window. -/
def processLog (o : Oracles) (ev : AbiEvent) (indexed : List AbiInput)
    (l : GoLog) : StepResult :=
  match l.topics with
  | [] => StepResult.panicked
  | t0 :: restTopics =>
    if logMatches ev t0 then
      match o.decodeTopics indexed restTopics with
      | Except.error _ => StepResult.fail []
      | Except.ok indexedFields =>
        match o.unpackData ev.name l.data with
        | Except.error _ => StepResult.fail []
        | Except.ok dataFields =>
          if (o.send ⟨ev.name, goHashHex l.txHash,
              indexedFields ++ dataFields⟩).transportError then
            StepResult.fail
              [⟨ev.name, goHashHex l.txHash, indexedFields ++ dataFields⟩]
          else if statusOutside (o.send ⟨ev.name, goHashHex l.txHash,
              indexedFields ++ dataFields⟩).status then
            StepResult.fail
              [⟨ev.name, goHashHex l.txHash, indexedFields ++ dataFields⟩]
          else
            StepResult.sent
              ⟨ev.name, goHashHex l.txHash, indexedFields ++ dataFields⟩
    else StepResult.skip

/-- `parseLogs` from `main.go`, lines 172–218: run the loop body on
each log in order; a panic or an error return ends the run at once,
a skip or a successful POST moves to the next log, and falling off the
loop returns nil.  Also returns the payloads whose POST was attempted,
in order. -/
def parseLogs (o : Oracles) (ev : AbiEvent) (indexed : List AbiInput) :
    List GoLog → Outcome × List WebhookRequest
  | [] => (Outcome.ok, [])
  | l :: rest =>
    match processLog o ev indexed l with
    | StepResult.panicked => (Outcome.panicked, [])
    | StepResult.skip => parseLogs o ev indexed rest
    | StepResult.fail ds => (Outcome.errored, ds)
    | StepResult.sent req =>
      ((parseLogs o ev indexed rest).1,
        req :: (parseLogs o ev indexed rest).2)

/-- What one scan cycle did: the range handed to `FilterLogs` (if the
fetch was issued at all), the payloads whose POST was attempted, the
value written to the checkpoint file (if any), whether the cycle
panicked, and the in-memory `currentBlock` after the cycle. -/
structure CycleTrace where
  fetched : Option (Int × Int)
  dispatched : List WebhookRequest
  written : Option Int
  panicked : Bool
  newBlock : Int
deriving DecidableEq, Repr

/-- The range upper bound from `main.go` lines 138–141:
`toBlock := currentBlock + chunkSize; if lastBlock < toBlock { toBlock = lastBlock }`. -/
def toBlockOf (chunkSize currentBlock lastBlock : Int) : Int :=
  if lastBlock < currentBlock + chunkSize then lastBlock
  else currentBlock + chunkSize

/-- One tick of the scan loop, `main.go` lines 131–168: query the
head; on success set `toBlock = currentBlock + chunkSize` clamped down
to the head, fetch logs for `[currentBlock, toBlock]`, run `parseLogs`,
and only if that returned nil write `currentBlock + chunkSize` to the
checkpoint file and add `chunkSize` to `currentBlock`.  `head = none`
models a failed `HeaderByNumber`; `fetch` returning `none` models a
failed `FilterLogs`. -/
def runCycle (chunkSize : Int) (o : Oracles) (ev : AbiEvent)
    (indexed : List AbiInput) (currentBlock : Int) (head : Option Int)
    (fetch : Int → Int → Option (List GoLog)) : CycleTrace :=
  match head with
  | none => ⟨none, [], none, false, currentBlock⟩
  | some lastBlock =>
    match fetch currentBlock (toBlockOf chunkSize currentBlock lastBlock) with
    | none =>
      ⟨some (currentBlock, toBlockOf chunkSize currentBlock lastBlock),
        [], none, false, currentBlock⟩
    | some logs =>
      match parseLogs o ev indexed logs with
      | (Outcome.panicked, ds) =>
        ⟨some (currentBlock, toBlockOf chunkSize currentBlock lastBlock),
          ds, none, true, currentBlock⟩
      | (Outcome.errored, ds) =>
        ⟨some (currentBlock, toBlockOf chunkSize currentBlock lastBlock),
          ds, none, false, currentBlock⟩
      | (Outcome.ok, ds) =>
        ⟨some (currentBlock, toBlockOf chunkSize currentBlock lastBlock),
          ds, some (currentBlock + chunkSize), false,
          currentBlock + chunkSize⟩

/-- The numeric value of a string of decimal digit characters. -/
def decimalNat (s : String) : Nat :=
  s.toList.foldl (fun a c => a * 10 + (c.toNat - 48)) 0

/-- `strconv.ParseInt(s, base, bitSize)`.  Go rejects any base outside
`{0} ∪ [2, 36]` with an error (returning value 0); for base 10 it
parses a decimal string.  Only those two aspects are reachable here:
the scanner calls it with base 64, which is invalid, and the spec's
idealised loader uses base 10. -/
def goParseInt (s : String) (base : Nat) (_bitSize : Nat) :
    Except String Int :=
  if base ≠ 0 ∧ (base < 2 ∨ base > 36) then Except.error "invalid base"
  else if base = 10 then
    if s.length > 0 ∧ s.toList.all (fun c => c.isDigit) then
      Except.ok (decimalNat s)
    else Except.error "invalid syntax"
  else Except.error "unmodelled base"

/-- The checkpoint-load sequence, `main.go` lines 71–87: the database
file is opened with `O_CREATE|O_RDWR|O_TRUNC`, which truncates it, so
the subsequent `io.ReadAll` yields the empty string; the result is
parsed with `strconv.ParseInt(string(data), 64, 10)` (base 64 is
invalid, so this always errors with value 0); then `if err == nil`
logs a corruption warning, and only the `else if i > 0` branch adopts
the parsed value.  Returns the resulting starting block. -/
def loadStartingBlock (fileContent : String) (flagDefault : Int) : Int :=
  let data := ""
  match goParseInt data 64 10 with
  | Except.ok _ => flagDefault
  | Except.error _ =>
    let i : Int := 0
    if i > 0 then i else flagDefault

/-- The idealised loader described by the spec (`Load(path)`), modelled
from the spec for comparison only: return the persisted value when the
file holds a valid non-negative decimal integer, else the configured
default. -/
def specLoad (fileContent : Option String) (flagDefault : Int) : Int :=
  match fileContent with
  | none => flagDefault
  | some s =>
    match goParseInt s 10 10 with
    | Except.ok i => i
    | Except.error _ => flagDefault

/-- The event-selection loop, `main.go` lines 104–119: scan all events
of the ABI, skip those whose name differs from the configured topic
name, and for a match collect its indexed inputs and remember the
event.  Starts from the Go zero values (`var mappedEvent abi.Event`,
`indexed := make([]abi.Argument, 0)`). -/
def findMapped (events : List AbiEvent) (topicName : String) :
    AbiEvent × List AbiInput :=
  events.foldl
    (fun acc ev =>
      if ev.name ≠ topicName then acc
      else (ev, acc.2 ++ ev.inputs.filter (fun i => i.indexed)))
    (zeroAbiEvent, [])

end Whisper

namespace Whisper

/-! ### Shared concrete instances and structural lemmas -/

/-- Oracles whose decodes succeed with empty field maps and whose POST
gets HTTP 200. -/
def trivOracles : Oracles :=
  ⟨fun _ _ => Except.ok [], fun _ _ => Except.ok [], fun _ => ⟨false, 200⟩⟩

/-- Oracles whose indexed-topic decode fails. -/
def failDecodeOracles : Oracles :=
  ⟨fun _ _ => Except.error "bad topics", fun _ _ => Except.ok [],
   fun _ => ⟨false, 200⟩⟩

/-- A fetch that succeeds with no logs. -/
def emptyFetch : Int → Int → Option (List GoLog) := fun _ _ => some []

/-- Membership in the inclusive block interval `[a, b]`, the range
semantics of `FilterQuery.FromBlock .. ToBlock` (`eth_getLogs`). -/
def inRange (a b x : Int) : Prop := a ≤ x ∧ x ≤ b

lemma runCycle_fetch_eq (C : Int) (o : Oracles) (ev : AbiEvent)
    (indexed : List AbiInput) (cb h : Int)
    (fetch : Int → Int → Option (List GoLog)) :
    (runCycle C o ev indexed cb (some h) fetch).fetched
      = some (cb, toBlockOf C cb h) := by
  unfold runCycle
  rcases hf : fetch cb (toBlockOf C cb h) with _ | logs
  · simp [hf]
  · rcases hpl : parseLogs o ev indexed logs with ⟨oc, ds⟩
    cases oc <;> simp [hf, hpl]

lemma runCycle_parse_ok (C : Int) (o : Oracles) (ev : AbiEvent)
    (indexed : List AbiInput) (cb h : Int)
    (fetch : Int → Int → Option (List GoLog)) (logs : List GoLog)
    (hf : fetch cb (toBlockOf C cb h) = some logs)
    (hok : (parseLogs o ev indexed logs).1 = Outcome.ok) :
    runCycle C o ev indexed cb (some h) fetch =
      ⟨some (cb, toBlockOf C cb h), (parseLogs o ev indexed logs).2,
        some (cb + C), false, cb + C⟩ := by
  unfold runCycle
  rcases hpl : parseLogs o ev indexed logs with ⟨oc, ds⟩
  rw [hpl] at hok
  simp only at hok
  subst hok
  simp [hf, hpl]

lemma runCycle_parse_errored (C : Int) (o : Oracles) (ev : AbiEvent)
    (indexed : List AbiInput) (cb h : Int)
    (fetch : Int → Int → Option (List GoLog)) (logs : List GoLog)
    (hf : fetch cb (toBlockOf C cb h) = some logs)
    (herr : (parseLogs o ev indexed logs).1 = Outcome.errored) :
    runCycle C o ev indexed cb (some h) fetch =
      ⟨some (cb, toBlockOf C cb h), (parseLogs o ev indexed logs).2,
        none, false, cb⟩ := by
  unfold runCycle
  rcases hpl : parseLogs o ev indexed logs with ⟨oc, ds⟩
  rw [hpl] at herr
  simp only at herr
  subst herr
  simp [hf, hpl]

lemma parseLogs_cons_of_fail (o : Oracles) (ev : AbiEvent)
    (indexed : List AbiInput) (l : GoLog) (rest : List GoLog)
    (hfail : (parseLogs o ev indexed [l]).1 = Outcome.errored) :
    parseLogs o ev indexed (l :: rest) = parseLogs o ev indexed [l] := by
  rcases hpr : processLog o ev indexed l with _ | _ | ds | req <;>
    simp_all [parseLogs, hpr]

lemma processLog_fail_small (o : Oracles) (ev : AbiEvent)
    (indexed : List AbiInput) (l : GoLog) (ds : List WebhookRequest)
    (h : processLog o ev indexed l = StepResult.fail ds) :
    ds.length ≤ 1 := by
  rcases ht : l.topics with _ | ⟨t0, ts⟩
  · simp [processLog, ht] at h
  · by_cases hm : logMatches ev t0
    · rcases hd : o.decodeTopics indexed ts with e | m1
      · simp [processLog, ht, hm, hd] at h
        subst h
        simp
      · rcases hu : o.unpackData ev.name l.data with e | m2
        · simp [processLog, ht, hm, hd, hu] at h
          subst h
          simp
        · by_cases htr :
            (o.send ⟨ev.name, goHashHex l.txHash, m1 ++ m2⟩).transportError
          · simp [processLog, ht, hm, hd, hu, htr] at h
            subst h
            simp
          · by_cases hst : statusOutside
                (o.send ⟨ev.name, goHashHex l.txHash, m1 ++ m2⟩).status
            · simp [processLog, ht, hm, hd, hu, htr, hst] at h
              subst h
              simp
            · simp [processLog, ht, hm, hd, hu, htr, hst] at h
    · simp [processLog, ht, hm] at h

end Whisper

namespace Whisper

/-! ### Claim theorems -/

/-- C6: the webhook dispatcher classifies a delivery as failed exactly
when the POST has a transport-level error or an HTTP status code
outside 200–299, classifies every status in 200–299 as success, and
attempts at most one POST per log (no retry inside the dispatcher). -/
theorem dispatcher_failure_classification (r : SendResult) (o : Oracles)
    (ev : AbiEvent) (indexed : List AbiInput) (l : GoLog) :
    (deliveryFailed r = true ↔
      (r.transportError = true ∨ r.status < 200 ∨ 299 < r.status))
    ∧ (deliveryFailed r = false ↔
      (r.transportError = false ∧ 200 ≤ r.status ∧ r.status ≤ 299))
    ∧ (parseLogs o ev indexed [l]).2.length ≤ 1 := by
  refine ⟨?_, ?_, ?_⟩
  · rcases r with ⟨te, st⟩
    cases te <;> simp [deliveryFailed, statusOutside] <;> omega
  · rcases r with ⟨te, st⟩
    cases te <;> simp [deliveryFailed, statusOutside] <;> omega
  · rcases hpr : processLog o ev indexed l with _ | _ | ds | req <;>
      simp [parseLogs, hpr]
    exact processLog_fail_small o ev indexed l ds hpr

/-- C7: with chunk size C > 0 and observed head h ≥ checkpoint cb, the
range handed to the log fetch starts at the checkpoint, spans at most C
blocks, and does not exceed the head. -/
theorem computed_range_within_chunk_and_head (C cb h : Int) (o : Oracles)
    (ev : AbiEvent) (indexed : List AbiInput)
    (fetch : Int → Int → Option (List GoLog))
    (hC : 0 < C) (hh : cb ≤ h) :
    (runCycle C o ev indexed cb (some h) fetch).fetched
      = some (cb, toBlockOf C cb h)
    ∧ toBlockOf C cb h - cb ≤ C ∧ toBlockOf C cb h ≤ h := by
  refine ⟨runCycle_fetch_eq C o ev indexed cb h fetch, ?_, ?_⟩ <;>
    (unfold toBlockOf; split <;> omega)

/-- Witness for C7 at checkpoint 0, chunk 100, head 50. -/
theorem computed_range_within_chunk_and_head_witness :
    (runCycle 100 trivOracles zeroAbiEvent [] 0 (some 50) emptyFetch).fetched
      = some (0, toBlockOf 100 0 50)
    ∧ toBlockOf 100 0 50 - 0 ≤ 100 ∧ toBlockOf 100 0 50 ≤ 50 :=
  computed_range_within_chunk_and_head 100 0 50 trivOracles zeroAbiEvent []
    emptyFetch (by decide) (by decide)

/-- C1, refuted by execution: with checkpoint 0, chunk size 100 and
head 50, a fully successful cycle fetches the range [0, 50] but
persists checkpoint 100 and sets the in-memory block to 100 — past the
upper bound 50 of the range that was actually fetched, so blocks
51–100 are never scanned. -/
theorem advance_overshoots_fetched_range :
    runCycle 100 trivOracles zeroAbiEvent [] 0 (some 50) emptyFetch =
      ⟨some (0, 50), [], some 100, false, 100⟩
    ∧ ¬ ((100 : Int) ≤ 50) := by decide

/-- C2, refuted by execution: with checkpoint 10, chunk size 5 and head
3 (head strictly below the checkpoint), the cycle is not a no-op — it
still issues a log fetch, over the inverted range [10, 3], and still
writes checkpoint 15. -/
theorem head_behind_checkpoint_cycle_not_noop :
    (runCycle 5 trivOracles zeroAbiEvent [] 10 (some 3) emptyFetch).fetched
      = some (10, 3)
    ∧ (runCycle 5 trivOracles zeroAbiEvent [] 10 (some 3) emptyFetch).written
      = some 15 := by decide

/-- C2 amended: when the observed head h is strictly below the
checkpoint cb, the cycle still issues the log fetch, over the inverted
range [cb, h]; and when that fetch and the per-log processing succeed,
the checkpoint is advanced to cb + chunkSize both in memory and on
disk. -/
theorem head_behind_checkpoint_still_fetches (C cb h : Int) (o : Oracles)
    (ev : AbiEvent) (indexed : List AbiInput)
    (fetch : Int → Int → Option (List GoLog)) (logs : List GoLog)
    (hC : 0 ≤ C) (hh : h < cb)
    (hf : fetch cb h = some logs)
    (hok : (parseLogs o ev indexed logs).1 = Outcome.ok) :
    (runCycle C o ev indexed cb (some h) fetch).fetched = some (cb, h)
    ∧ (runCycle C o ev indexed cb (some h) fetch).written = some (cb + C)
    ∧ (runCycle C o ev indexed cb (some h) fetch).newBlock = cb + C := by
  have htB : toBlockOf C cb h = h := by unfold toBlockOf; split <;> omega
  have hr := runCycle_parse_ok C o ev indexed cb h fetch logs
    (by rw [htB]; exact hf) hok
  rw [hr]
  simp [htB]

/-- Witness for the amended C2 at checkpoint 10, chunk 5, head 3. -/
theorem head_behind_checkpoint_still_fetches_witness :
    (runCycle 5 trivOracles zeroAbiEvent [] 10 (some 3) emptyFetch).fetched
      = some (10, 3)
    ∧ (runCycle 5 trivOracles zeroAbiEvent [] 10 (some 3) emptyFetch).written
      = some (10 + 5)
    ∧ (runCycle 5 trivOracles zeroAbiEvent [] 10 (some 3) emptyFetch).newBlock
      = 10 + 5 :=
  head_behind_checkpoint_still_fetches 5 10 3 trivOracles zeroAbiEvent []
    emptyFetch [] (by decide) (by decide) rfl rfl

/-- C3, refuted by execution: with the checkpoint file holding the
valid value "42" and flag default 7, the startup load returns 7, not
42 — opening with `O_TRUNC` wipes the file, `ParseInt` is called with
the invalid base 64, and the `err == nil` check is inverted — while the
loader described by the spec returns the persisted 42. -/
theorem load_discards_valid_checkpoint :
    loadStartingBlock "42" 7 = 7
    ∧ specLoad (some "42") 7 = 42
    ∧ ((7 : Int) = 42 → False) := by decide

end Whisper

namespace Whisper

/-- C4, refuted by execution: a log with no topics is not skipped —
`parseLogs` hits the out-of-range index `Topics[0]` and panics, and a
cycle whose fetch returns such a log records a panic and writes no
checkpoint, so the log does affect cycle success. -/
theorem no_topics_log_panics :
    parseLogs trivOracles zeroAbiEvent [] [⟨[], [], 0⟩]
      = (Outcome.panicked, [])
    ∧ (runCycle 100 trivOracles zeroAbiEvent [] 0 (some 50)
        (fun _ _ => some [⟨[], [], 0⟩])).panicked = true
    ∧ (runCycle 100 trivOracles zeroAbiEvent [] 0 (some 50)
        (fun _ _ => some [⟨[], [], 0⟩])).written = none := by decide

/-- C4 amended: decoding and dispatch are attempted only when the
log's first topic equals the target event's signature hash — a log
whose first topic differs is skipped without error and the run
continues exactly as if the log were absent; but a log with NO topics
is not skipped: it panics the process. -/
theorem nonmatching_first_topic_skipped (o : Oracles) (ev : AbiEvent)
    (indexed : List AbiInput) (l l' : GoLog) (rest : List GoLog)
    (t0 : Nat) (ts : List Nat)
    (ht : l.topics = t0 :: ts) (hm : logMatches ev t0 = false)
    (ht' : l'.topics = []) :
    processLog o ev indexed l = StepResult.skip
    ∧ parseLogs o ev indexed (l :: rest) = parseLogs o ev indexed rest
    ∧ parseLogs o ev indexed (l' :: rest) = (Outcome.panicked, []) := by
  have hp : processLog o ev indexed l = StepResult.skip := by
    simp [processLog, ht, hm]
  have hp' : processLog o ev indexed l' = StepResult.panicked := by
    simp [processLog, ht']
  exact ⟨hp, by simp [parseLogs, hp], by simp [parseLogs, hp']⟩

/-- Witness for the amended C4: against the zero event (ID 0), a log
with first topic 7 is skipped, and a log with no topics panics. -/
theorem nonmatching_first_topic_skipped_witness :
    processLog trivOracles zeroAbiEvent [] ⟨[7], [], 0⟩ = StepResult.skip
    ∧ parseLogs trivOracles zeroAbiEvent [] [⟨[7], [], 0⟩, ⟨[0], [], 1⟩]
      = parseLogs trivOracles zeroAbiEvent [] [⟨[0], [], 1⟩]
    ∧ parseLogs trivOracles zeroAbiEvent [] [⟨[], [], 2⟩, ⟨[0], [], 1⟩]
      = (Outcome.panicked, []) :=
  nonmatching_first_topic_skipped trivOracles zeroAbiEvent []
    ⟨[7], [], 0⟩ ⟨[], [], 2⟩ [⟨[0], [], 1⟩] 7 [] rfl rfl rfl

lemma parseLogs_cons_skip (o : Oracles) (ev : AbiEvent)
    (indexed : List AbiInput) (p : GoLog) (rest : List GoLog)
    (h : processLog o ev indexed p = StepResult.skip) :
    parseLogs o ev indexed (p :: rest) = parseLogs o ev indexed rest := by
  simp [parseLogs, h]

lemma parseLogs_cons_sent (o : Oracles) (ev : AbiEvent)
    (indexed : List AbiInput) (p : GoLog) (rest : List GoLog)
    (req : WebhookRequest)
    (h : processLog o ev indexed p = StepResult.sent req) :
    parseLogs o ev indexed (p :: rest)
      = ((parseLogs o ev indexed rest).1,
         req :: (parseLogs o ev indexed rest).2) := by
  simp [parseLogs, h]

lemma parseLogs_append_fail (o : Oracles) (ev : AbiEvent)
    (indexed : List AbiInput) (pre : List GoLog) (l : GoLog)
    (rest : List GoLog)
    (hpre : (parseLogs o ev indexed pre).1 = Outcome.ok)
    (hfail : (parseLogs o ev indexed [l]).1 = Outcome.errored) :
    parseLogs o ev indexed (pre ++ l :: rest)
      = (Outcome.errored,
         (parseLogs o ev indexed pre).2
           ++ (parseLogs o ev indexed [l]).2) := by
  induction pre with
  | nil =>
    rw [List.nil_append, parseLogs_cons_of_fail o ev indexed l rest hfail]
    rcases hl : parseLogs o ev indexed [l] with ⟨oc, ds⟩
    rw [hl] at hfail
    simp only at hfail
    subst hfail
    simp [parseLogs]
  | cons p pre ih =>
    rcases hpr : processLog o ev indexed p with _ | _ | ds | req
    · simp [parseLogs, hpr] at hpre
    · have hpre' : (parseLogs o ev indexed pre).1 = Outcome.ok := by
        rw [parseLogs_cons_skip o ev indexed p pre hpr] at hpre
        exact hpre
      rw [List.cons_append,
        parseLogs_cons_skip o ev indexed p (pre ++ l :: rest) hpr,
        parseLogs_cons_skip o ev indexed p pre hpr]
      exact ih hpre'
    · simp [parseLogs, hpr] at hpre
    · have hpre' : (parseLogs o ev indexed pre).1 = Outcome.ok := by
        rw [parseLogs_cons_sent o ev indexed p pre req hpr] at hpre
        exact hpre
      rw [List.cons_append,
        parseLogs_cons_sent o ev indexed p (pre ++ l :: rest) req hpr,
        parseLogs_cons_sent o ev indexed p pre req hpr, ih hpre']
      simp

/-- C5: if the processing of any log of the chunk fails (decode error,
transport error or non-2xx status) after every log before it was
skipped or dispatched successfully, the whole cycle aborts at that
log — the remaining logs are never processed (the run's result does
not depend on them), the payloads already POSTed for the earlier logs
are kept, not rolled back, nothing is written to the checkpoint file,
the in-memory block stays put, and the next cycle under the same head
recomputes the identical fetch range (at-least-once delivery). -/
theorem decode_dispatch_failure_aborts_cycle (C cb h : Int) (o : Oracles)
    (ev : AbiEvent) (indexed : List AbiInput)
    (fetch : Int → Int → Option (List GoLog)) (pre : List GoLog)
    (l : GoLog) (rest : List GoLog)
    (hpre : (parseLogs o ev indexed pre).1 = Outcome.ok)
    (hfail : (parseLogs o ev indexed [l]).1 = Outcome.errored)
    (hf : fetch cb (toBlockOf C cb h) = some (pre ++ l :: rest)) :
    parseLogs o ev indexed (pre ++ l :: rest)
      = (Outcome.errored,
         (parseLogs o ev indexed pre).2
           ++ (parseLogs o ev indexed [l]).2)
    ∧ (runCycle C o ev indexed cb (some h) fetch).dispatched
      = (parseLogs o ev indexed pre).2 ++ (parseLogs o ev indexed [l]).2
    ∧ (runCycle C o ev indexed cb (some h) fetch).written = none
    ∧ (runCycle C o ev indexed cb (some h) fetch).newBlock = cb
    ∧ (runCycle C o ev indexed
        (runCycle C o ev indexed cb (some h) fetch).newBlock
        (some h) fetch).fetched
      = (runCycle C o ev indexed cb (some h) fetch).fetched := by
  have happ := parseLogs_append_fail o ev indexed pre l rest hpre hfail
  have herr : (parseLogs o ev indexed (pre ++ l :: rest)).1
      = Outcome.errored := by
    rw [happ]
  have hr := runCycle_parse_errored C o ev indexed cb h fetch
    (pre ++ l :: rest) hf herr
  have h3 : (runCycle C o ev indexed cb (some h) fetch).newBlock = cb := by
    rw [hr]
  refine ⟨happ, ?_, by rw [hr], h3, by rw [h3]⟩
  rw [hr]
  show (parseLogs o ev indexed (pre ++ l :: rest)).2 = _
  rw [happ]

/-- Oracles whose POST gets HTTP 200 but whose data unpack fails
exactly on a log with nonempty payload bytes. -/
def mixedOracles : Oracles :=
  ⟨fun _ _ => Except.ok [],
   fun _ data => if data = [] then Except.ok [] else Except.error "bad",
   fun _ => ⟨false, 200⟩⟩

/-- Witness for C5 at checkpoint 0, chunk 5, head 10: the first log is
dispatched successfully, the second fails its data unpack, and a third
pending log is left unprocessed; the first log's POST is kept. -/
theorem decode_dispatch_failure_aborts_cycle_witness :
    parseLogs mixedOracles zeroAbiEvent []
        ([⟨[0], [], 1⟩] ++ ⟨[0], [42], 2⟩ :: [⟨[0], [], 3⟩])
      = (Outcome.errored,
         (parseLogs mixedOracles zeroAbiEvent [] [⟨[0], [], 1⟩]).2
           ++ (parseLogs mixedOracles zeroAbiEvent [] [⟨[0], [42], 2⟩]).2)
    ∧ (runCycle 5 mixedOracles zeroAbiEvent [] 0 (some 10)
        (fun _ _ =>
          some [⟨[0], [], 1⟩, ⟨[0], [42], 2⟩, ⟨[0], [], 3⟩])).dispatched
      = (parseLogs mixedOracles zeroAbiEvent [] [⟨[0], [], 1⟩]).2
          ++ (parseLogs mixedOracles zeroAbiEvent [] [⟨[0], [42], 2⟩]).2
    ∧ (runCycle 5 mixedOracles zeroAbiEvent [] 0 (some 10)
        (fun _ _ =>
          some [⟨[0], [], 1⟩, ⟨[0], [42], 2⟩, ⟨[0], [], 3⟩])).written
      = none
    ∧ (runCycle 5 mixedOracles zeroAbiEvent [] 0 (some 10)
        (fun _ _ =>
          some [⟨[0], [], 1⟩, ⟨[0], [42], 2⟩, ⟨[0], [], 3⟩])).newBlock
      = 0
    ∧ (runCycle 5 mixedOracles zeroAbiEvent []
        (runCycle 5 mixedOracles zeroAbiEvent [] 0 (some 10)
          (fun _ _ =>
            some [⟨[0], [], 1⟩, ⟨[0], [42], 2⟩, ⟨[0], [], 3⟩])).newBlock
        (some 10)
        (fun _ _ =>
          some [⟨[0], [], 1⟩, ⟨[0], [42], 2⟩, ⟨[0], [], 3⟩])).fetched
      = (runCycle 5 mixedOracles zeroAbiEvent [] 0 (some 10)
          (fun _ _ =>
            some [⟨[0], [], 1⟩, ⟨[0], [42], 2⟩, ⟨[0], [], 3⟩])).fetched :=
  decode_dispatch_failure_aborts_cycle 5 0 10 mixedOracles
    zeroAbiEvent []
    (fun _ _ => some [⟨[0], [], 1⟩, ⟨[0], [42], 2⟩, ⟨[0], [], 3⟩])
    [⟨[0], [], 1⟩] ⟨[0], [42], 2⟩ [⟨[0], [], 3⟩] rfl rfl rfl

end Whisper

namespace Whisper

lemma hexDigits_length (w v : Nat) : (hexDigits w v).length = w := by
  induction w generalizing v with
  | zero => rfl
  | succ w ih => simp [hexDigits, ih]

lemma hexChar_mem_hex (n : Nat) (h : n < 16) :
    hexChar n ∈ "0123456789abcdef".toList := by
  have hall : ∀ m < 16, hexChar m ∈ "0123456789abcdef".toList := by decide
  exact hall n h

lemma hexDigits_all_hex (w v : Nat) :
    (hexDigits w v).all
      (fun c => decide (c ∈ "0123456789abcdef".toList)) = true := by
  induction w generalizing v with
  | zero => rfl
  | succ w ih =>
    simp only [hexDigits, List.all_append, ih, Bool.true_and, List.all_cons,
      List.all_nil, Bool.and_true, decide_eq_true_eq]
    exact hexChar_mem_hex _ (Nat.mod_lt _ (by norm_num))

lemma goHashHex_toList (h : Nat) :
    (goHashHex h).toList = '0' :: 'x' :: hexDigits 64 h := by
  show ("0x" ++ String.mk (hexDigits 64 h)).data
    = '0' :: 'x' :: hexDigits 64 h
  rw [String.data_append]
  have h1 : "0x".data = ['0', 'x'] := rfl
  have h2 : (String.mk (hexDigits 64 h)).data = hexDigits 64 h := rfl
  rw [h1, h2]
  simp

/-- Oracles producing the sample field values from the spec's
round-trip example, with an HTTP 204 response. -/
def sampleOracles : Oracles :=
  ⟨fun _ _ => Except.ok [("from", AbiValue.addr 1)],
   fun _ _ => Except.ok
     [("value", AbiValue.int 10000000000000000000000000)],
   fun _ => ⟨false, 204⟩⟩

/-- C8: the payload whose POST is attempted for a matching, decodable
log is built from exactly the event name, the transaction hash and the
concatenation of the indexed and non-indexed field maps; its JSON
serialization has exactly the keys `event`, `tx_hash`, `data`; and the
transaction hash renders as `0x` followed by 64 lowercase hexadecimal
characters. -/
theorem webhook_payload_shape (o : Oracles) (ev : AbiEvent)
    (indexed : List AbiInput) (l : GoLog) (t0 : Nat) (ts : List Nat)
    (m1 m2 : FieldMap)
    (ht : l.topics = t0 :: ts) (hm : logMatches ev t0 = true)
    (h1 : o.decodeTopics indexed ts = Except.ok m1)
    (h2 : o.unpackData ev.name l.data = Except.ok m2) :
    (parseLogs o ev indexed [l]).2
      = [⟨ev.name, goHashHex l.txHash, m1 ++ m2⟩]
    ∧ (marshalWebhook ⟨ev.name, goHashHex l.txHash, m1 ++ m2⟩).map
        Prod.fst = ["event", "tx_hash", "data"]
    ∧ (goHashHex l.txHash).toList = '0' :: 'x' :: hexDigits 64 l.txHash
    ∧ (hexDigits 64 l.txHash).length = 64
    ∧ (hexDigits 64 l.txHash).all
        (fun c => decide (c ∈ "0123456789abcdef".toList)) = true := by
  have hp : processLog o ev indexed l =
      (if (o.send ⟨ev.name, goHashHex l.txHash, m1 ++ m2⟩).transportError
       then StepResult.fail [⟨ev.name, goHashHex l.txHash, m1 ++ m2⟩]
       else if statusOutside
           (o.send ⟨ev.name, goHashHex l.txHash, m1 ++ m2⟩).status then
         StepResult.fail [⟨ev.name, goHashHex l.txHash, m1 ++ m2⟩]
       else StepResult.sent ⟨ev.name, goHashHex l.txHash, m1 ++ m2⟩) := by
    simp [processLog, ht, hm, h1, h2]
  refine ⟨?_, rfl, ?_, hexDigits_length 64 l.txHash,
    hexDigits_all_hex 64 l.txHash⟩
  · by_cases htr :
      (o.send ⟨ev.name, goHashHex l.txHash, m1 ++ m2⟩).transportError
    · simp [parseLogs, hp, htr]
    · by_cases hst : statusOutside
        (o.send ⟨ev.name, goHashHex l.txHash, m1 ++ m2⟩).status
      · simp [parseLogs, hp, htr, hst]
      · simp [parseLogs, hp, htr, hst]
  · exact goHashHex_toList l.txHash

/-- Witness for C8 on a matching log decoded to the spec's sample
field values. -/
theorem webhook_payload_shape_witness :
    (parseLogs sampleOracles zeroAbiEvent [] [⟨[0], [], 0⟩]).2
      = [⟨zeroAbiEvent.name, goHashHex 0,
          [("from", AbiValue.addr 1)] ++
            [("value", AbiValue.int 10000000000000000000000000)]⟩]
    ∧ (marshalWebhook ⟨zeroAbiEvent.name, goHashHex 0,
        [("from", AbiValue.addr 1)] ++
          [("value", AbiValue.int 10000000000000000000000000)]⟩).map
        Prod.fst = ["event", "tx_hash", "data"]
    ∧ (goHashHex 0).toList = '0' :: 'x' :: hexDigits 64 0
    ∧ (hexDigits 64 0).length = 64
    ∧ (hexDigits 64 0).all
        (fun c => decide (c ∈ "0123456789abcdef".toList)) = true :=
  webhook_payload_shape sampleOracles zeroAbiEvent [] ⟨[0], [], 0⟩ 0 []
    [("from", AbiValue.addr 1)]
    [("value", AbiValue.int 10000000000000000000000000)]
    rfl rfl rfl rfl

end Whisper

namespace Whisper

lemma findMapped_foldl_fix (events : List AbiEvent) (topicName : String)
    (h : ∀ ev ∈ events, ev.name ≠ topicName)
    (acc : AbiEvent × List AbiInput) :
    events.foldl
      (fun acc ev =>
        if ev.name ≠ topicName then acc
        else (ev, acc.2 ++ ev.inputs.filter (fun i => i.indexed))) acc
      = acc := by
  induction events generalizing acc with
  | nil => rfl
  | cons e es ih =>
    have he : e.name ≠ topicName := h e (List.mem_cons_self e es)
    simp only [List.foldl_cons, if_pos he]
    exact ih (fun ev hm => h ev (List.mem_cons_of_mem e hm)) acc

/-- C9: when no event of the loaded ABI bears the configured name,
startup does not fail — the scan runs with the zero-valued event
(empty name, zero signature hash) and an empty indexed-parameter list,
and a log whose first topic is the 32-byte zero word is then treated
as a match. -/
theorem missing_event_keeps_zero_event (events : List AbiEvent)
    (topicName : String)
    (h : ∀ ev ∈ events, ev.name ≠ topicName) :
    findMapped events topicName = (zeroAbiEvent, [])
    ∧ zeroAbiEvent.id = 0
    ∧ logMatches (findMapped events topicName).1 0 = true := by
  have hf : findMapped events topicName = (zeroAbiEvent, []) := by
    unfold findMapped
    exact findMapped_foldl_fix events topicName h (zeroAbiEvent, [])
  exact ⟨hf, rfl, by rw [hf]; rfl⟩

/-- Witness for C9: an ABI holding only a `Transfer` event, scanned for
the absent event name `Mint`. -/
theorem missing_event_keeps_zero_event_witness :
    findMapped [⟨"Transfer", 5, [⟨"from", true⟩]⟩] "Mint"
      = (zeroAbiEvent, [])
    ∧ zeroAbiEvent.id = 0
    ∧ logMatches
        (findMapped [⟨"Transfer", 5, [⟨"from", true⟩]⟩] "Mint").1 0
      = true :=
  missing_event_keeps_zero_event [⟨"Transfer", 5, [⟨"from", true⟩]⟩]
    "Mint" (by decide)

/-- C10: fetch ranges are inclusive at both ends and a fully
successful cycle advances the checkpoint by exactly chunkSize, so when
the head is at least cb + C at both cycles, the boundary block cb + C
lies in the fetched range of the cycle starting at cb and also in the
fetched range of the next cycle, which starts at cb + C — its logs are
fetched, decoded and dispatched twice even with no failures. -/
theorem boundary_block_in_consecutive_ranges (C cb h1 h2 : Int)
    (o : Oracles) (ev : AbiEvent) (indexed : List AbiInput)
    (fetch1 fetch2 : Int → Int → Option (List GoLog))
    (logs : List GoLog)
    (hC : 0 < C) (hh1 : cb + C ≤ h1) (hh2 : cb + C ≤ h2)
    (hf : fetch1 cb (toBlockOf C cb h1) = some logs)
    (hok : (parseLogs o ev indexed logs).1 = Outcome.ok) :
    (runCycle C o ev indexed cb (some h1) fetch1).fetched
      = some (cb, cb + C)
    ∧ (runCycle C o ev indexed cb (some h1) fetch1).newBlock = cb + C
    ∧ (runCycle C o ev indexed (cb + C) (some h2) fetch2).fetched
      = some (cb + C, toBlockOf C (cb + C) h2)
    ∧ inRange cb (cb + C) (cb + C)
    ∧ inRange (cb + C) (toBlockOf C (cb + C) h2) (cb + C) := by
  have ht1 : toBlockOf C cb h1 = cb + C := by
    unfold toBlockOf; split <;> omega
  have hr := runCycle_parse_ok C o ev indexed cb h1 fetch1 logs hf hok
  refine ⟨?_, ?_, runCycle_fetch_eq C o ev indexed (cb + C) h2 fetch2,
    ?_, ?_⟩
  · rw [hr]; simp [ht1]
  · rw [hr]
  · simp only [inRange]; omega
  · simp only [inRange, toBlockOf]; split <;> omega

/-- Witness for C10 at checkpoint 0, chunk 100, heads 1000/1000. -/
theorem boundary_block_in_consecutive_ranges_witness :
    (runCycle 100 trivOracles zeroAbiEvent [] 0 (some 1000)
        emptyFetch).fetched = some (0, 0 + 100)
    ∧ (runCycle 100 trivOracles zeroAbiEvent [] 0 (some 1000)
        emptyFetch).newBlock = 0 + 100
    ∧ (runCycle 100 trivOracles zeroAbiEvent [] (0 + 100) (some 1000)
        emptyFetch).fetched = some (0 + 100, toBlockOf 100 (0 + 100) 1000)
    ∧ inRange 0 (0 + 100) (0 + 100)
    ∧ inRange (0 + 100) (toBlockOf 100 (0 + 100) 1000) (0 + 100) :=
  boundary_block_in_consecutive_ranges 100 0 1000 1000 trivOracles
    zeroAbiEvent [] emptyFetch emptyFetch [] (by decide) (by decide)
    (by decide) rfl rfl

end Whisper
